import Mathlib

/-!
Shallow embedding of the to-do manager (`src/todo_app.py`): task records,
id generation, date validation, the add/edit validation paths, the view
projection (filter, sort, per-row annotation), JSON persistence, and the
selection lookup, together with theorems settling the spec claims.
-/

set_option maxHeartbeats 1000000

namespace TodoSpec

/-- A task record, the dict built in `add_task` (all seven keys present). -/
structure Task where
  id : String
  text : String
  priority : String
  due_date : Option String
  completed : Bool
  created : String
  deleted : Bool
deriving DecidableEq, Repr

/-! ### Python `int(...)` on id strings (`next_id`) -/

/-- Numeric value of a digit character. -/
def digitVal (c : Char) : Nat := c.toNat - 48

/-- Value of a big-endian digit list, as Python `int` computes it. -/
def parseDigits (cs : List Char) : Nat :=
  cs.foldl (fun a c => a * 10 + digitVal c) 0

/-- Drop leading whitespace. -/
def dropWS (cs : List Char) : List Char := cs.dropWhile Char.isWhitespace

/-- Strip whitespace at both ends, as Python `str.strip` / `int()` do. -/
def trimWS (cs : List Char) : List Char := ((dropWS cs.reverse).reverse).dropWhile Char.isWhitespace

/-- `int(s)` after the optional sign character has been split off. -/
def parsePySigned (c : Char) (rest : List Char) : Option Int :=
  if c = '-' then
    if rest ≠ [] ∧ rest.all Char.isDigit then some (-(parseDigits rest : Int)) else none
  else if c = '+' then
    if rest ≠ [] ∧ rest.all Char.isDigit then some ((parseDigits rest : Int)) else none
  else
    if (c :: rest).all Char.isDigit then some ((parseDigits (c :: rest) : Int)) else none

/-- `int(s)` on a trimmed character list: optional sign then decimal digits. -/
def parsePyIntCore (cs : List Char) : Option Int :=
  match cs with
  | [] => none
  | c :: rest => parsePySigned c rest

/-- Python `int(s)`: `some` value, or `none` for a `ValueError`. -/
def parsePyInt (s : String) : Option Int := parsePyIntCore (trimWS s.data)

/-- `int(t["id"])` for every record; `none` when any raises `ValueError`,
which aborts the whole `max(...)` generator in `next_id`. -/
def idVals : List Task → Option (List Int)
  | [] => some []
  | t :: ts =>
    match parsePyInt t.id, idVals ts with
    | some v, some vs => some (v :: vs)
    | _, _ => none

/-- `next_id(tasks)`: 1 on an empty list; otherwise `max(int(t["id"]))+1`,
falling back to `0+1` when the generator raises `ValueError`. -/
def next_id (tasks : List Task) : Int :=
  if tasks.isEmpty then 1
  else
    match idVals tasks with
    | some (v :: vs) => vs.foldl max v + 1
    | _ => 1

/-! ### Python `str(n)` for the generated id -/

/-- Big-endian decimal digit characters of `n` (empty for 0); the fuel
argument only bounds the recursion depth. -/
def natDigits : Nat → Nat → List Char
  | 0, _ => []
  | fuel + 1, n =>
    if n = 0 then [] else natDigits fuel (n / 10) ++ [Char.ofNat (48 + n % 10)]

/-- Decimal rendering of a natural number, as Python `str` prints it. -/
def natToString (n : Nat) : String :=
  if n = 0 then "0" else ⟨natDigits (n + 1) n⟩

/-- Python `str` on an integer. -/
def pyStr (i : Int) : String :=
  if i < 0 then "-" ++ natToString i.natAbs else natToString i.toNat

/-! ### Dates: `datetime.strptime(s, "%Y-%m-%d").date()` and `datetime.date` arithmetic -/

/-- A proleptic-Gregorian calendar date, as `datetime.date` holds it. -/
structure YMD where
  year : Nat
  month : Nat
  day : Nat
deriving DecidableEq, Repr

/-- Greedily consume up to `maxN` digit characters, accumulating their value;
returns the value, the number of digits consumed, and the rest. -/
def grabDigits : Nat → Nat → Nat → List Char → Nat × Nat × List Char
  | 0, acc, cnt, cs => (acc, cnt, cs)
  | _ + 1, acc, cnt, [] => (acc, cnt, [])
  | m + 1, acc, cnt, c :: cs =>
    if c.isDigit then grabDigits m (acc * 10 + digitVal c) (cnt + 1) cs
    else (acc, cnt, c :: cs)

/-- Structural part of `strptime(s, "%Y-%m-%d")`: exactly four year digits
(the `%Y` pattern is `\d\d\d\d`), a dash, one or two month digits, a dash,
one or two day digits, end of input. -/
def parseDateStruct (s : String) : Option YMD :=
  let (y, yk, r1) := grabDigits 4 0 0 s.data
  if yk ≠ 4 then none
  else
    match r1 with
    | '-' :: r2 =>
      let (mo, mk, r3) := grabDigits 2 0 0 r2
      if mk = 0 then none
      else
        match r3 with
        | '-' :: r4 =>
          let (d, dk, r5) := grabDigits 2 0 0 r4
          if dk = 0 then none
          else if r5 = [] then some ⟨y, mo, d⟩ else none
        | _ => none
    | _ => none

/-- Gregorian leap-year test, as `calendar.isleap` / `datetime` use. -/
def isLeap (y : Nat) : Bool := y % 4 == 0 && (y % 100 != 0 || y % 400 == 0)

/-- Number of days in a month. -/
def daysInMonth (y m : Nat) : Nat :=
  if m = 2 then (if isLeap y then 29 else 28)
  else if m = 4 ∨ m = 6 ∨ m = 9 ∨ m = 11 then 30
  else 31

/-- Range checks `datetime.date(y, m, d)` performs (violations raise `ValueError`). -/
def validYMD (d : YMD) : Bool :=
  1 ≤ d.year && d.year ≤ 9999 && 1 ≤ d.month && d.month ≤ 12 &&
    1 ≤ d.day && d.day ≤ daysInMonth d.year d.month

/-- `datetime.strptime(s, "%Y-%m-%d").date()`: structural parse plus range
check; `none` models the `ValueError` path. -/
def parsePyDate (s : String) : Option YMD :=
  match parseDateStruct s with
  | some d => if validYMD d then some d else none
  | none => none

/-- `date.__lt__`: lexicographic comparison on (year, month, day). -/
def ymdLt (a b : YMD) : Bool :=
  a.year < b.year ∨ (a.year = b.year ∧ (a.month < b.month ∨ (a.month = b.month ∧ a.day < b.day)))

/-- Days in months 1..m-1 of year `y` (the `_days_before_month` table). -/
def daysBeforeMonth (y m : Nat) : Nat :=
  let base :=
    match m with
    | 1 => 0 | 2 => 31 | 3 => 59 | 4 => 90 | 5 => 120 | 6 => 151
    | 7 => 181 | 8 => 212 | 9 => 243 | 10 => 273 | 11 => 304 | _ => 334
  if 3 ≤ m ∧ isLeap y then base + 1 else base

/-- `date.toordinal()`: day number with 0001-01-01 as day 1. -/
def toOrdinal (d : YMD) : Nat :=
  (d.year - 1) * 365 + (d.year - 1) / 4 - (d.year - 1) / 100 + (d.year - 1) / 400 +
    daysBeforeMonth d.year d.month + d.day

/-- `(a - b).days` on two dates. -/
def dateDiff (a b : YMD) : Int := (toOrdinal a : Int) - (toOrdinal b : Int)

/-- Zero-pad to two digits. -/
def pad2 (n : Nat) : String := if n < 10 then "0" ++ natToString n else natToString n

/-- Zero-pad a year to four digits. -/
def pad4 (n : Nat) : String :=
  if n < 10 then "000" ++ natToString n
  else if n < 100 then "00" ++ natToString n
  else if n < 1000 then "0" ++ natToString n
  else natToString n

/-- `date.isoformat()`. -/
def isoformat (d : YMD) : String := pad4 d.year ++ "-" ++ pad2 d.month ++ "-" ++ pad2 d.day

/-! ### `validate_date` -/

/-- Result of `TodoApp.validate_date`: `None`, `"INVALID"`, or a date. -/
inductive DateResult where
  | noDate
  | invalid
  | valid (d : YMD)
deriving DecidableEq, Repr

/-- `validate_date(s)`: `None` on falsy input, the parsed date on success,
the sentinel `"INVALID"` when `strptime` raises `ValueError`. -/
def validate_date (s : String) : DateResult :=
  if s = "" then .noDate
  else
    match parsePyDate s with
    | some d => .valid d
    | none => .invalid

/-! ### String helpers used by the event handlers -/

/-- Python `str.strip()`. -/
def pyStrip (s : String) : String := ⟨trimWS s.data⟩

/-- Python `str.lower()` (ASCII case folding suffices for this program). -/
def pyLower (s : String) : String := ⟨s.data.map Char.toLower⟩

/-- Is `ns` an initial segment of `hs`? -/
def takeEq : List Char → List Char → Bool
  | [], _ => true
  | _ :: _, [] => false
  | n :: ns, h :: hs => n == h && takeEq ns hs

/-- Python `needle in hay` on strings: contiguous-substring containment. -/
def hasSub (ns : List Char) : List Char → Bool
  | [] => takeEq ns []
  | h :: t => takeEq ns (h :: t) || hasSub ns t

/-- Python `s.startswith("YYYY")`, the placeholder test in the plain-Entry path. -/
def startsYYYY (s : String) : Bool := takeEq "YYYY".data s.data

/-! ### `add_task` and the edit dialog's save handler -/

/-- The two validation failures (`messagebox` warning/error followed by early
return, leaving `self.tasks` untouched). -/
inductive VErr where
  | emptyText
  | invalidDate
deriving DecidableEq, Repr

/-- Read the due-date widget as `add_task` does: `tkcal` selects the
`DateEntry` branch, otherwise the plain-Entry branch with its
`"YYYY..."` placeholder test. Returns the stored `due_date` value or a
validation failure. -/
def readDueDate (tkcal : Bool) (dueRaw : String) : Except VErr (Option String) :=
  let dr := pyStrip dueRaw
  if tkcal then
    if dr = "" then .ok none
    else
      match validate_date dr with
      | .valid d => .ok (some (isoformat d))
      | _ => .error .invalidDate
  else
    if startsYYYY dr || dr = "" then .ok none
    else
      match validate_date dr with
      | .valid d => .ok (some (isoformat d))
      | _ => .error .invalidDate

/-- `add_task`: strip the text, reject empty text, read/validate the due
date, then append the new record and return. The returned list is the
store after the handler; a `some` error means the handler returned early. -/
def add_task (tasks : List Task) (rawText priority dueRaw : String) (tkcal : Bool)
    (created : String) : List Task × Option VErr :=
  let text := pyStrip rawText
  if text = "" then (tasks, some .emptyText)
  else
    match readDueDate tkcal dueRaw with
    | .error e => (tasks, some e)
    | .ok due =>
      (tasks ++ [{ id := pyStr (next_id tasks), text := text, priority := priority,
                   due_date := due, completed := false, created := created,
                   deleted := false }], none)

/-- The edit dialog's `save` handler applied to one task: strip the text,
reject empty text, validate the due date (both widget branches treat a
blank entry as `None` and otherwise validate), then mutate `text`,
`priority`, `due_date` in place. -/
def edit_save (t : Task) (rawText priority dueRaw : String) : Task × Option VErr :=
  let newText := pyStrip rawText
  if newText = "" then (t, some .emptyText)
  else
    let dr := pyStrip dueRaw
    if dr = "" then ({ t with text := newText, priority := priority, due_date := none }, none)
    else
      match validate_date dr with
      | .valid d =>
        ({ t with text := newText, priority := priority, due_date := some (isoformat d) }, none)
      | _ => (t, some .invalidDate)

/-! ### Selection lookup and soft delete -/

/-- `get_selected_task`: first record whose id equals the selected row's id
and whose `deleted` flag is not set. -/
def get_selected_task (tasks : List Task) (sel : String) : Option Task :=
  match tasks with
  | [] => none
  | t :: ts => if t.id == sel && !t.deleted then some t else get_selected_task ts sel

/-- `delete_task` / `clear_completed` on one record: set `deleted = True`. -/
def soft_delete (t : Task) : Task := { t with deleted := true }

/-! ### View projection (`refresh_task_list`) -/

/-- The six values `filter_var` can take. -/
inductive Filter where
  | all
  | pending
  | completedF
  | highPriority
  | mediumPriority
  | lowPriority
deriving DecidableEq, Repr

/-- The filter conditions of the visibility loop: `Pending` skips completed
records, `Completed` skips pending ones, and a filter ending in
`"Priority"` skips records whose priority differs from its first word. -/
def keepByFilter (f : Filter) (t : Task) : Bool :=
  match f with
  | .all => true
  | .pending => !t.completed
  | .completedF => t.completed
  | .highPriority => t.priority == "High"
  | .mediumPriority => t.priority == "Medium"
  | .lowPriority => t.priority == "Low"

/-- The search condition: with `s = search.lower().strip()` nonempty, keep
only records whose lowercased text contains `s`. -/
def keepBySearch (search : String) (t : Task) : Bool :=
  let s := pyStrip (pyLower search)
  s == "" || hasSub s.data (pyLower t.text).data

/-- The visibility loop of `refresh_task_list` before sorting. -/
def visibleUnsorted (tasks : List Task) (f : Filter) (search : String) : List Task :=
  tasks.filter (fun t => !t.deleted && keepByFilter f t && keepBySearch search t)

/-- `pri_order.get(priority, 1)` with `{"High": 0, "Medium": 1, "Low": 2}`. -/
def priRank (p : String) : Nat :=
  if p == "High" then 0 else if p == "Medium" then 1 else if p == "Low" then 2 else 1

/-- `x.get('due_date') or "9999-12-31"`: `None` and the empty string both
fall back to the far-future sentinel. -/
def dueKey (t : Task) : String :=
  match t.due_date with
  | none => "9999-12-31"
  | some d => if d = "" then "9999-12-31" else d

/-- The composite sort key `(completed, pri_order.get(...), due, created)`,
compared lexicographically as Python compares tuples. -/
def sortKey (t : Task) : Bool ×ₗ (Nat ×ₗ (String ×ₗ String)) :=
  toLex (t.completed, toLex (priRank t.priority, toLex (dueKey t, t.created)))

/-- The list order `visible.sort(key=sort_key)` sorts by. -/
def taskLE (a b : Task) : Prop := sortKey a ≤ sortKey b

instance : DecidableRel taskLE := fun a b =>
  inferInstanceAs (Decidable (sortKey a ≤ sortKey b))

instance : IsTotal Task taskLE := ⟨fun a b => le_total (sortKey a) (sortKey b)⟩

instance : IsTrans Task taskLE := ⟨fun _ _ _ hab hbc => le_trans hab hbc⟩

/-- `visible.sort(key=sort_key)`: a stable sort by the composite key
(insertion sort produces the same list as Python's stable Timsort). -/
def sortTasks (l : List Task) : List Task := l.insertionSort taskLE

/-- The ordered list of visible rows `refresh_task_list` inserts. -/
def refreshVisible (tasks : List Task) (f : Filter) (search : String) : List Task :=
  sortTasks (visibleUnsorted tasks f search)

/-! ### Per-row annotation: days-left text and display tags -/

/-- `t.get('due_date')` followed by Python truthiness: `None` and `""` both
take the no-due-date branch. -/
def pyTruthy (o : Option String) : Option String :=
  match o with
  | none => none
  | some s => if s = "" then none else some s

/-- The `days_left` cell: `N day(s)` / `|N| day(s) overdue` from
`(due_date - today).days`, `N/A` without a due date, `Invalid date` when
`strptime` raises. -/
def daysLeftStr (t : Task) (today : YMD) : String :=
  match pyTruthy t.due_date with
  | none => "N/A"
  | some due =>
    match parsePyDate due with
    | none => "Invalid date"
    | some d =>
      let delta := dateDiff d today
      if delta ≥ 0 then toString delta ++ " day(s)"
      else toString delta.natAbs ++ " day(s) overdue"

/-- The row tags configured on the tree widget. -/
inductive Tag where
  | completedTag
  | overdueTag
  | highPriorityTag
  | mediumPriorityTag
  | lowPriorityTag
deriving DecidableEq, Repr

/-- The loop-local `due_date` variable: the parsed date, `None` when the
field is absent, falsy, or fails to parse. -/
def rowDueParsed (t : Task) : Option YMD :=
  match pyTruthy t.due_date with
  | some due => parsePyDate due
  | none => none

/-- The condition `due_date and due_date < today` guarding the overdue tag. -/
def rowOverdue (t : Task) (today : YMD) : Bool :=
  match rowDueParsed t with
  | some d => ymdLt d today
  | none => false

/-- The if/elif/else priority tag of a pending row. -/
def rowPriorityTag (t : Task) : Tag :=
  if t.priority == "High" then Tag.highPriorityTag
  else if t.priority == "Medium" then Tag.mediumPriorityTag
  else Tag.lowPriorityTag

/-- The tag list built for one row: completed rows get exactly
`completed`; pending rows get one priority tag and, when the stored due
date parses and is strictly before today, `overdue`. -/
def rowTags (t : Task) (today : YMD) : List Tag :=
  if t.completed then [Tag.completedTag]
  else [rowPriorityTag t] ++ (if rowOverdue t today then [Tag.overdueTag] else [])

/-! ### Persistence (`save_tasks` / `load_tasks`) at the JSON-value level -/

/-- JSON values, the interchange type of `json.dump` / `json.load`. -/
inductive Json where
  | null
  | bool (b : Bool)
  | str (s : String)
  | arr (xs : List Json)
  | obj (kvs : List (String × Json))

/-- The dict `add_task` builds, hence the serialized shape of one task. -/
def taskToJson (t : Task) : Json :=
  .obj [("id", .str t.id), ("text", .str t.text), ("priority", .str t.priority),
        ("due_date", match t.due_date with | none => .null | some s => .str s),
        ("completed", .bool t.completed), ("created", .str t.created),
        ("deleted", .bool t.deleted)]

/-- `json.dump(self.tasks, f)`: the value written to the backing file. -/
def save_tasks (tasks : List Task) : Json := .arr (tasks.map taskToJson)

/-- First value bound to key `k` in a JSON object's entry list. -/
def jlookup (k : String) : List (String × Json) → Option Json
  | [] => none
  | (k2, v) :: rest => if k2 = k then some v else jlookup k rest

/-- Read a JSON string. -/
def asStr : Option Json → Option String
  | some (.str s) => some s
  | _ => none

/-- Read a JSON boolean. -/
def asBool : Option Json → Option Bool
  | some (.bool b) => some b
  | _ => none

/-- Read a JSON string-or-null, the `due_date` column. -/
def asOptStr : Option Json → Option (Option String)
  | some (.str s) => some (some s)
  | some .null => some none
  | _ => none

/-- Recover one task record from its JSON object. -/
def jsonToTask (j : Json) : Option Task :=
  match j with
  | .obj kvs =>
    match asStr (jlookup "id" kvs), asStr (jlookup "text" kvs),
          asStr (jlookup "priority" kvs), asOptStr (jlookup "due_date" kvs),
          asBool (jlookup "completed" kvs), asStr (jlookup "created" kvs),
          asBool (jlookup "deleted" kvs) with
    | some i, some tx, some p, some dd, some c, some cr, some de =>
      some ⟨i, tx, p, dd, c, cr, de⟩
    | _, _, _, _, _, _, _ => none
  | _ => none

/-- Decode a list of task objects, failing if any record fails. -/
def decodeTasks : List Json → Option (List Task)
  | [] => some []
  | j :: js =>
    match jsonToTask j, decodeTasks js with
    | some t, some ts => some (t :: ts)
    | _, _ => none

/-- `load_tasks` on a readable file: `json.load` back into task records. -/
def load_tasks (j : Json) : Option (List Task) :=
  match j with
  | .arr xs => decodeTasks xs
  | _ => none

/-! ### Sample records used in concrete witnesses and counterexamples -/

/-- Sample: pending high-priority task due far in the future. -/
def taskA : Task :=
  { id := "1", text := "A", priority := "High", due_date := some "2099-01-01",
    completed := false, created := "2024-01-01 10:00", deleted := false }

/-- Sample: pending low-priority task due in the past. -/
def taskB : Task :=
  { id := "2", text := "B", priority := "Low", due_date := some "2000-01-01",
    completed := false, created := "2024-01-01 10:01", deleted := false }

/-- Sample: completed high-priority task due in the past. -/
def taskC : Task :=
  { id := "3", text := "C", priority := "High", due_date := some "2000-01-01",
    completed := true, created := "2024-01-01 10:02", deleted := false }

/-- Sample: record with numeric id 5. -/
def taskId5 : Task :=
  { id := "5", text := "five", priority := "Medium", due_date := none,
    completed := false, created := "2024-01-01 10:03", deleted := true }

/-- Sample: record with a non-numeric id. -/
def taskIdAbc : Task :=
  { id := "abc", text := "abc", priority := "Medium", due_date := none,
    completed := false, created := "2024-01-01 10:04", deleted := false }

/-- Sample: pending task with no due date. -/
def taskNoDue : Task :=
  { id := "4", text := "no due", priority := "Medium", due_date := none,
    completed := false, created := "2024-01-01 10:05", deleted := false }

/-- Sample: pending task with a priority string outside the enum. -/
def taskUrgent : Task :=
  { id := "6", text := "urgent", priority := "Urgent", due_date := none,
    completed := false, created := "2024-01-01 10:06", deleted := false }

/-! ## Claim theorems -/

/-- C3: the projection orders visible rows ascending by the composite key
(completed flag with incomplete first, priority rank, due date with the
9999-12-31 sentinel for absent dates, creation timestamp as tie-break); it
is a permutation of the filtered rows; and on the concrete tasks
A(High, 2099-01-01, pending), B(Low, 2000-01-01, pending),
C(High, 2000-01-01, completed) under filter All the order is [A, B, C]. -/
theorem projection_sorted_by_composite_key :
    (∀ (tasks : List Task) (f : Filter) (search : String),
      List.Sorted taskLE (refreshVisible tasks f search) ∧
      List.Perm (refreshVisible tasks f search) (visibleUnsorted tasks f search)) ∧
    refreshVisible [taskC, taskB, taskA] Filter.all "" = [taskA, taskB, taskC] := by
  refine ⟨fun tasks f search => ⟨List.sorted_insertionSort taskLE _, List.perm_insertionSort taskLE _⟩, ?_⟩
  decide

/-- C4: a row is flagged overdue iff its due date is present (and nonempty),
parses, and lies strictly before the reference date while the task is not
completed; a completed row's tag list is exactly `[completed]`; a pending
row carries exactly one priority tag plus optionally `overdue`. -/
theorem overdue_flag_and_tag_sets :
    ∀ (t : Task) (today : YMD),
      (Tag.overdueTag ∈ rowTags t today ↔
        t.completed = false ∧
          ∃ s d, pyTruthy t.due_date = some s ∧ parsePyDate s = some d ∧ ymdLt d today = true) ∧
      (t.completed = true → rowTags t today = [Tag.completedTag]) ∧
      (t.completed = false →
        ∃ p, (p = Tag.highPriorityTag ∨ p = Tag.mediumPriorityTag ∨ p = Tag.lowPriorityTag) ∧
          (rowTags t today = [p] ∨ rowTags t today = [p, Tag.overdueTag])) := by
  intro t today
  have hover : rowOverdue t today = true ↔
      ∃ s d, pyTruthy t.due_date = some s ∧ parsePyDate s = some d ∧ ymdLt d today = true := by
    cases hdd : pyTruthy t.due_date with
    | none => simp [rowOverdue, rowDueParsed, hdd]
    | some s =>
      cases hpd : parsePyDate s with
      | none => simp [rowOverdue, rowDueParsed, hdd, hpd]
      | some d => simp [rowOverdue, rowDueParsed, hdd, hpd]
  have hpri : rowPriorityTag t ≠ Tag.overdueTag := by
    unfold rowPriorityTag
    split
    · simp
    · split <;> simp
  by_cases hc : t.completed
  · refine ⟨?_, fun _ => by simp [rowTags, hc], fun h => by simp [hc] at h⟩
    simp [rowTags, hc]
  · have hc' : t.completed = false := by simpa using hc
    refine ⟨?_, fun h => by simp [h] at hc, fun _ => ?_⟩
    · rw [rowTags, if_neg (by simp [hc'])]
      by_cases ho : rowOverdue t today
      · simp only [ho, if_true]
        constructor
        · intro _
          exact ⟨hc', hover.mp ho⟩
        · intro _
          simp
      · rw [Bool.eq_false_iff.mpr ho, if_neg (by simp)]
        constructor
        · intro hmem
          simp at hmem
          exact absurd hmem.symm hpri
        · rintro ⟨_, hex⟩
          exact absurd (hover.mpr hex) ho
    · refine ⟨rowPriorityTag t, ?_, ?_⟩
      · unfold rowPriorityTag
        split
        · exact Or.inl rfl
        · split
          · exact Or.inr (Or.inl rfl)
          · exact Or.inr (Or.inr rfl)
      · rw [rowTags, if_neg (by simp [hc'])]
        by_cases ho : rowOverdue t today
        · rw [ho, if_pos rfl]
          exact Or.inr rfl
        · rw [Bool.eq_false_iff.mpr ho, if_neg (by simp)]
          exact Or.inl rfl

/-- C4 witness: on the concrete pending low-priority task due 2000-01-01
with reference date 2030-01-01, the theorem yields its tag shape, and on
the completed task C the tag list is exactly `[completed]`. -/
theorem overdue_flag_and_tag_sets_witness :
    (∃ p, (p = Tag.highPriorityTag ∨ p = Tag.mediumPriorityTag ∨ p = Tag.lowPriorityTag) ∧
      (rowTags taskB ⟨2030, 1, 1⟩ = [p] ∨ rowTags taskB ⟨2030, 1, 1⟩ = [p, Tag.overdueTag])) ∧
    rowTags taskC ⟨2030, 1, 1⟩ = [Tag.completedTag] :=
  ⟨(overdue_flag_and_tag_sets taskB ⟨2030, 1, 1⟩).2.2 rfl,
   (overdue_flag_and_tag_sets taskC ⟨2030, 1, 1⟩).2.1 rfl⟩

/-- C5: the days-left cell renders `(due_date - reference_date).days` as
`N day(s)` when non-negative and `|N| day(s) overdue` when negative, shows
`N/A` without a due date and `Invalid date` when the stored date fails to
parse; concretely a task due 2000-01-01 against reference date 2030-01-01
shows `10958 day(s) overdue`. -/
theorem days_left_rendering :
    (∀ (t : Task) (today : YMD),
      (t.due_date = none → daysLeftStr t today = "N/A") ∧
      (∀ s, pyTruthy t.due_date = some s → parsePyDate s = none →
        daysLeftStr t today = "Invalid date") ∧
      (∀ s d, pyTruthy t.due_date = some s → parsePyDate s = some d →
        daysLeftStr t today =
          (if dateDiff d today ≥ 0 then toString (dateDiff d today) ++ " day(s)"
           else toString (dateDiff d today).natAbs ++ " day(s) overdue"))) ∧
    daysLeftStr taskB ⟨2030, 1, 1⟩ = "10958 day(s) overdue" := by
  constructor
  · intro t today
    refine ⟨?_, ?_, ?_⟩
    · intro h
      simp [daysLeftStr, pyTruthy, h]
    · intro s hs hp
      simp [daysLeftStr, hs, hp]
    · intro s d hs hp
      simp [daysLeftStr, hs, hp]
  · decide

/-- C5 witness: the theorem applied to a task with no due date and to one
whose stored date parses. -/
theorem days_left_rendering_witness :
    daysLeftStr taskNoDue ⟨2030, 1, 1⟩ = "N/A" ∧
    daysLeftStr taskA ⟨2030, 1, 1⟩ =
      (if dateDiff ⟨2099, 1, 1⟩ ⟨2030, 1, 1⟩ ≥ 0 then
        toString (dateDiff ⟨2099, 1, 1⟩ ⟨2030, 1, 1⟩) ++ " day(s)"
       else toString (dateDiff ⟨2099, 1, 1⟩ ⟨2030, 1, 1⟩).natAbs ++ " day(s) overdue") :=
  ⟨(days_left_rendering.1 taskNoDue ⟨2030, 1, 1⟩).1 rfl,
   (days_left_rendering.1 taskA ⟨2030, 1, 1⟩).2.2 "2099-01-01" ⟨2099, 1, 1⟩ rfl (by decide)⟩

/-- C8: a successful edit-dialog save never changes the `id` or `created`
fields of the record it mutates. -/
theorem edit_preserves_id_and_created :
    ∀ (t : Task) (rawText priority dueRaw : String) (t2 : Task),
      edit_save t rawText priority dueRaw = (t2, none) →
      t2.id = t.id ∧ t2.created = t.created := by
  intro t rawText priority dueRaw t2 h
  unfold edit_save at h
  simp only [] at h
  split at h
  · simp at h
  · split at h
    · injection h with h1 _
      subst h1
      exact ⟨rfl, rfl⟩
    · split at h
      · injection h with h1 _
        subst h1
        exact ⟨rfl, rfl⟩
      · simp at h

/-- C8 witness: a concrete successful edit keeps id and created. -/
theorem edit_preserves_id_and_created_witness :
    (edit_save taskA "new text" "Low" "2031-05-06").1.id = taskA.id ∧
    (edit_save taskA "new text" "Low" "2031-05-06").1.created = taskA.created :=
  edit_preserves_id_and_created taskA "new text" "Low" "2031-05-06"
    (edit_save taskA "new text" "Low" "2031-05-06").1 (by decide)

/-- C9: the selection lookup only ever resolves to a record whose
`deleted` flag is unset (and whose id matches the selected row), so a
soft-deleted record is never returned to the mutating handlers. -/
theorem selection_resolves_only_undeleted :
    ∀ (tasks : List Task) (sel : String) (t : Task),
      get_selected_task tasks sel = some t →
      t.deleted = false ∧ t.id = sel ∧ t ∈ tasks := by
  intro tasks sel
  induction tasks with
  | nil => intro t h; cases h
  | cons u us ih =>
    intro t h
    unfold get_selected_task at h
    by_cases hcond : (u.id == sel && !u.deleted) = true
    · rw [if_pos hcond] at h
      injection h with h1
      subst h1
      simp at hcond
      exact ⟨hcond.2, hcond.1, List.mem_cons_self u us⟩
    · rw [if_neg hcond] at h
      obtain ⟨h1, h2, h3⟩ := ih t h
      exact ⟨h1, h2, List.mem_cons_of_mem u h3⟩

/-- C9 witness: with a deleted and an undeleted record sharing id 1, the
lookup returns the undeleted one. -/
theorem selection_resolves_only_undeleted_witness :
    (soft_delete taskA).deleted = false ∨
      ((taskA.deleted = false ∧ taskA.id = "1" ∧ taskA ∈ [soft_delete taskA, taskA]) ∧
        get_selected_task [soft_delete taskA, taskA] "1" = some taskA) :=
  Or.inr ⟨selection_resolves_only_undeleted [soft_delete taskA, taskA] "1" taskA (by decide),
    by decide⟩

/-- C10: a pending, undeleted task whose priority is outside
{High, Medium, Low} sorts with priority rank 1 — the same rank as Medium —
yet is tagged `low_priority`. -/
theorem unknown_priority_rank_and_tag :
    ∀ (t : Task) (today : YMD),
      t.completed = false → t.deleted = false →
      t.priority ≠ "High" → t.priority ≠ "Medium" → t.priority ≠ "Low" →
      priRank t.priority = 1 ∧ priRank t.priority = priRank "Medium" ∧
      ∃ rest, rowTags t today = Tag.lowPriorityTag :: rest := by
  intro t today hc _ hH hM hL
  have h1 : priRank t.priority = 1 := by
    unfold priRank
    rw [if_neg (by simpa using hH), if_neg (by simpa using hM), if_neg (by simpa using hL)]
  refine ⟨h1, by rw [h1]; decide, ?_⟩
  rw [rowTags, if_neg (by simp [hc])]
  refine ⟨if rowOverdue t today then [Tag.overdueTag] else [], ?_⟩
  rw [rowPriorityTag, if_neg (by simpa using hH), if_neg (by simpa using hM)]
  rfl

/-- C10 witness: a pending task with priority `Urgent` ranks 1 and is
tagged `low_priority`. -/
theorem unknown_priority_rank_and_tag_witness :
    priRank taskUrgent.priority = 1 ∧ priRank taskUrgent.priority = priRank "Medium" ∧
      ∃ rest, rowTags taskUrgent ⟨2030, 1, 1⟩ = Tag.lowPriorityTag :: rest :=
  unknown_priority_rank_and_tag taskUrgent ⟨2030, 1, 1⟩ rfl rfl (by decide) (by decide)
    (by decide)

/-- One task record decodes back from its serialized object. -/
theorem jsonToTask_taskToJson (t : Task) : jsonToTask (taskToJson t) = some t := by
  obtain ⟨i, tx, p, dd, c, cr, de⟩ := t
  cases dd <;> rfl

/-- A serialized task list decodes field-for-field. -/
theorem decodeTasks_map (ts : List Task) : decodeTasks (ts.map taskToJson) = some ts := by
  induction ts with
  | nil => rfl
  | cons t ts ih => simp [decodeTasks, jsonToTask_taskToJson, ih]

/-- C6: saving any task list (soft-deleted and null-due-date records
included) and loading it back yields the original list field-for-field. -/
theorem save_load_roundtrip : ∀ tasks : List Task, load_tasks (save_tasks tasks) = some tasks :=
  fun tasks => decodeTasks_map tasks

/-! ### Lemmas about `idVals` and running maxima -/

/-- When every id parses, `idVals` succeeds, the values matching the
records pointwise. -/
theorem idVals_some_of_all (tasks : List Task)
    (h : ∀ t ∈ tasks, ∃ v, parsePyInt t.id = some v) :
    ∃ vs, idVals tasks = some vs ∧
      List.Forall₂ (fun t v => parsePyInt t.id = some v) tasks vs := by
  induction tasks with
  | nil => exact ⟨[], rfl, List.Forall₂.nil⟩
  | cons t ts ih =>
    obtain ⟨v, hv⟩ := h t (List.mem_cons_self t ts)
    obtain ⟨vs, hvs, hf⟩ := ih (fun u hu => h u (List.mem_cons_of_mem t hu))
    exact ⟨v :: vs, by simp [idVals, hv, hvs], List.Forall₂.cons hv hf⟩

/-- When some id raises `ValueError`, the whole generator fails. -/
theorem idVals_none_of_bad (tasks : List Task)
    (h : ∃ t ∈ tasks, parsePyInt t.id = none) : idVals tasks = none := by
  induction tasks with
  | nil => simp at h
  | cons t ts ih =>
    obtain ⟨u, hu, hbad⟩ := h
    rcases List.mem_cons.mp hu with rfl | hmem
    · simp [idVals, hbad]
    · have hn := ih ⟨u, hmem, hbad⟩
      cases hp : parsePyInt t.id <;> simp [idVals, hp, hn]

/-- A running maximum is one of the inputs. -/
theorem foldl_max_mem (l : List Int) (a : Int) : l.foldl max a ∈ a :: l := by
  induction l generalizing a with
  | nil => simp
  | cons x xs ih =>
    rw [List.foldl_cons]
    rcases List.mem_cons.mp (ih (max a x)) with h1 | h1
    · rcases max_choice a x with hm | hm
      · rw [h1, hm]; exact List.mem_cons_self _ _
      · rw [h1, hm]; exact List.mem_cons_of_mem _ (List.mem_cons_self _ _)
    · exact List.mem_cons_of_mem _ (List.mem_cons_of_mem _ h1)

/-- A running maximum bounds the seed and every input. -/
theorem le_foldl_max (l : List Int) (a : Int) :
    a ≤ l.foldl max a ∧ ∀ x ∈ l, x ≤ l.foldl max a := by
  induction l generalizing a with
  | nil => simp
  | cons y ys ih =>
    rw [List.foldl_cons]
    obtain ⟨h1, h2⟩ := ih (max a y)
    refine ⟨le_trans (le_max_left a y) h1, ?_⟩
    intro x hx
    rcases List.mem_cons.mp hx with rfl | hmem
    · exact le_trans (le_max_right a x) h1
    · exact h2 x hmem

/-- Right-to-left membership transfer along a pointwise relation. -/
theorem forall2_mem_right {R : Task → Int → Prop} {l1 : List Task} {l2 : List Int}
    (h : List.Forall₂ R l1 l2) : ∀ v ∈ l2, ∃ t ∈ l1, R t v := by
  induction h with
  | nil => simp
  | cons h1 _ ih =>
    intro v hv
    rcases List.mem_cons.mp hv with rfl | hm
    · exact ⟨_, List.mem_cons_self _ _, h1⟩
    · obtain ⟨t, ht, hp⟩ := ih v hm
      exact ⟨t, List.mem_cons_of_mem _ ht, hp⟩

/-- Left-to-right membership transfer along a pointwise relation. -/
theorem forall2_mem_left {R : Task → Int → Prop} {l1 : List Task} {l2 : List Int}
    (h : List.Forall₂ R l1 l2) : ∀ t ∈ l1, ∃ v ∈ l2, R t v := by
  induction h with
  | nil => simp
  | cons h1 _ ih =>
    intro t ht
    rcases List.mem_cons.mp ht with rfl | hm
    · exact ⟨_, List.mem_cons_self _ _, h1⟩
    · obtain ⟨v, hv, hp⟩ := ih t hm
      exact ⟨v, List.mem_cons_of_mem _ hv, hp⟩

/-- C1 counterexample: with records of ids "5" and "abc", treating the
non-numeric id as 0 would give `max(5, 0) + 1 = 6`, but the `ValueError`
raised inside the `max(...)` generator discards the numeric ids too, so
`next_id` returns 1. -/
theorem next_id_fallback_counterexample :
    next_id [taskId5, taskIdAbc] = 1 ∧ next_id [taskId5, taskIdAbc] ≠ 6 := by
  decide

/-- C1 amended: on an empty list `next_id` is 1; when all ids parse as
integers it returns their maximum plus 1; but when any id fails to parse
as an integer, the fallback discards every id and returns 1 (rather than
treating only the offending ids as 0). -/
theorem next_id_amended :
    ∀ tasks : List Task,
      (tasks = [] → next_id tasks = 1) ∧
      ((∃ t ∈ tasks, parsePyInt t.id = none) → next_id tasks = 1) ∧
      (tasks ≠ [] → (∀ t ∈ tasks, ∃ v, parsePyInt t.id = some v) →
        ∃ m, (∃ t ∈ tasks, parsePyInt t.id = some m) ∧
          (∀ t ∈ tasks, ∀ v, parsePyInt t.id = some v → v ≤ m) ∧
          next_id tasks = m + 1) := by
  intro tasks
  refine ⟨fun h => by simp [next_id, h], fun h => ?_, fun hne hall => ?_⟩
  · have hn := idVals_none_of_bad tasks h
    unfold next_id
    by_cases he : tasks.isEmpty
    · rw [if_pos he]
    · rw [if_neg he, hn]
  · obtain ⟨vs, hvs, hf⟩ := idVals_some_of_all tasks hall
    cases tasks with
    | nil => exact absurd rfl hne
    | cons t0 rest =>
      cases hf with
      | cons hv0 hfrest =>
        rename_i v0 vrest
        refine ⟨vrest.foldl max v0, ?_, ?_, ?_⟩
        · have hmem := foldl_max_mem vrest v0
          exact forall2_mem_right (List.Forall₂.cons hv0 hfrest) _ hmem
        · intro t ht v hv
          obtain ⟨w, hw, hpw⟩ := forall2_mem_left (List.Forall₂.cons hv0 hfrest) t ht
          rw [hv] at hpw
          injection hpw with hvw
          subst hvw
          obtain ⟨hseed, hbound⟩ := le_foldl_max vrest v0
          rcases List.mem_cons.mp hw with rfl | hmm
          · exact hseed
          · exact hbound _ hmm
        · unfold next_id
          rw [if_neg (by simp), hvs]

/-- C1 amended witness: on the concrete all-numeric list with ids 5 and 4
the theorem produces the maximum 5 and `next_id = 6`. -/
theorem next_id_amended_witness :
    ∃ m, (∃ t ∈ [taskId5, taskNoDue], parsePyInt t.id = some m) ∧
      (∀ t ∈ [taskId5, taskNoDue], ∀ v, parsePyInt t.id = some v → v ≤ m) ∧
      next_id [taskId5, taskNoDue] = m + 1 :=
  (next_id_amended [taskId5, taskNoDue]).2.2 (by simp)
    (by
      intro t ht
      rcases List.mem_cons.mp ht with rfl | ht2
      · exact ⟨5, by decide⟩
      · rcases List.mem_cons.mp ht2 with rfl | h3
        · exact ⟨4, by decide⟩
        · simp at h3)

/-- C2 counterexample: in the plain-Entry fallback, the due string
`"YYYY-MM-DD (optional)"` does not parse as a date, yet the add does not
fail: it appends a record with no due date, changing the list. -/
theorem add_placeholder_counterexample :
    validate_date (pyStrip "YYYY-MM-DD (optional)") = DateResult.invalid ∧
    (add_task [] "buy milk" "Medium" "YYYY-MM-DD (optional)" false "2024-01-01 00:00").2 = none ∧
    (add_task [] "buy milk" "Medium" "YYYY-MM-DD (optional)" false "2024-01-01 00:00").1 ≠ [] := by
  decide

/-- C2 amended: an add or edit with empty/whitespace-only text, or with a
due string that fails date validation, fails with a validation error and
leaves the store unchanged — except that an add through the plain-Entry
fallback treats a due string starting with "YYYY" as the placeholder and
succeeds, storing no due date. -/
theorem add_edit_validation :
    ∀ (tasks : List Task) (rawText priority dueRaw created : String) (tkcal : Bool) (t : Task),
      (pyStrip rawText = "" →
        add_task tasks rawText priority dueRaw tkcal created = (tasks, some VErr.emptyText) ∧
        edit_save t rawText priority dueRaw = (t, some VErr.emptyText)) ∧
      (pyStrip rawText ≠ "" → validate_date (pyStrip dueRaw) = DateResult.invalid →
        (tkcal = true ∨ startsYYYY (pyStrip dueRaw) = false) →
        add_task tasks rawText priority dueRaw tkcal created = (tasks, some VErr.invalidDate) ∧
        edit_save t rawText priority dueRaw = (t, some VErr.invalidDate)) ∧
      (pyStrip rawText ≠ "" → startsYYYY (pyStrip dueRaw) = true →
        add_task tasks rawText priority dueRaw false created =
          (tasks ++ [{ id := pyStr (next_id tasks), text := pyStrip rawText,
                       priority := priority, due_date := none, completed := false,
                       created := created, deleted := false }], none)) := by
  intro tasks rawText priority dueRaw created tkcal t
  refine ⟨fun ht => ?_, fun ht hv hbr => ?_, fun ht hY => ?_⟩
  · constructor
    · unfold add_task
      rw [if_pos ht]
    · unfold edit_save
      rw [if_pos ht]
  · have hdr : pyStrip dueRaw ≠ "" := by
      intro h0
      rw [h0] at hv
      simp [validate_date] at hv
    constructor
    · unfold add_task readDueDate
      rw [if_neg ht]
      cases tkcal with
      | true =>
        simp only [if_true]
        rw [if_neg hdr, hv]
      | false =>
        have hY : startsYYYY (pyStrip dueRaw) = false := by
          rcases hbr with h | h
          · cases h
          · exact h
        simp only [Bool.false_eq_true, if_false]
        rw [hY, if_neg (by simp [hdr]), hv]
    · unfold edit_save
      rw [if_neg ht, if_neg hdr, hv]
  · unfold add_task readDueDate
    rw [if_neg ht]
    simp only [Bool.false_eq_true, if_false]
    rw [hY, if_pos (by simp)]

/-- C2 amended witness: a whitespace-only text and the invalid calendar
date 2024-02-30 both fail and leave the store unchanged, for add and
edit alike. -/
theorem add_edit_validation_witness :
    (add_task [taskA] "   " "Medium" "" true "c" = ([taskA], some VErr.emptyText) ∧
      edit_save taskA "   " "Medium" "" = (taskA, some VErr.emptyText)) ∧
    (add_task [taskA] "x" "Medium" "2024-02-30" true "c" = ([taskA], some VErr.invalidDate) ∧
      edit_save taskA "x" "Medium" "2024-02-30" = (taskA, some VErr.invalidDate)) :=
  ⟨(add_edit_validation [taskA] "   " "Medium" "" "c" true taskA).1 (by decide),
   (add_edit_validation [taskA] "x" "Medium" "2024-02-30" "c" true taskA).2.1 (by decide)
     (by decide) (Or.inl rfl)⟩

/-! ### Decimal round trip: `int(str(n)) = n` -/

/-- A digit character's numeric value recovers the digit. -/
theorem digitVal_ofNat (d : Nat) (h : d < 10) : digitVal (Char.ofNat (48 + d)) = d := by
  interval_cases d <;> decide

/-- The rendered character of a digit is a digit character. -/
theorem isDigit_ofNat (d : Nat) (h : d < 10) : (Char.ofNat (48 + d)).isDigit = true := by
  interval_cases d <;> decide

/-- Appending one digit multiplies the parsed value by ten. -/
theorem parseDigits_append_singleton (A : List Char) (c : Char) :
    parseDigits (A ++ [c]) = parseDigits A * 10 + digitVal c := by
  unfold parseDigits
  rw [List.foldl_append, List.foldl_cons, List.foldl_nil]

/-- Zero renders to no digits at any fuel. -/
theorem natDigits_zero (fuel : Nat) : natDigits fuel 0 = [] := by
  cases fuel <;> rfl

/-- With enough fuel, the digit rendering of a positive number is
nonempty, all digits, and parses back to the number. -/
theorem natDigits_spec :
    ∀ (fuel n : Nat), 1 ≤ n → n ≤ fuel →
      parseDigits (natDigits fuel n) = n ∧ natDigits fuel n ≠ [] ∧
        (natDigits fuel n).all Char.isDigit = true := by
  intro fuel
  induction fuel with
  | zero => intro n h1 h2; omega
  | succ f ih =>
    intro n h1 h2
    rw [natDigits, if_neg (by omega)]
    by_cases hsmall : n < 10
    · have hdiv : n / 10 = 0 := Nat.div_eq_of_lt hsmall
      have hmod : n % 10 = n := Nat.mod_eq_of_lt hsmall
      rw [hdiv, natDigits_zero, List.nil_append, hmod]
      refine ⟨?_, by simp, by simp [isDigit_ofNat n hsmall]⟩
      show 0 * 10 + digitVal (Char.ofNat (48 + n)) = n
      rw [digitVal_ofNat n hsmall]
      omega
    · have hd1 : 1 ≤ n / 10 := (Nat.le_div_iff_mul_le (by omega)).mpr (by omega)
      have hd2 : n / 10 ≤ f := by
        have : n / 10 < n := Nat.div_lt_self (by omega) (by omega)
        omega
      obtain ⟨ihp, ihne, ihdig⟩ := ih (n / 10) hd1 hd2
      have hmlt : n % 10 < 10 := Nat.mod_lt _ (by omega)
      refine ⟨?_, by simp, ?_⟩
      · rw [parseDigits_append_singleton, ihp, digitVal_ofNat _ hmlt]
        omega
      · rw [List.all_append, ihdig]
        simp [isDigit_ofNat _ hmlt]

/-- A digit character is not whitespace. -/
theorem digit_not_ws (c : Char) (h : c.isDigit = true) : c.isWhitespace = false := by
  by_contra hw
  rw [Bool.not_eq_false] at hw
  unfold Char.isWhitespace at hw
  simp only [Bool.or_eq_true, decide_eq_true_eq] at hw
  rcases hw with ((h1 | h1) | h1) | h1 <;> rw [h1] at h <;> exact absurd h (by decide)

/-- `dropWhile` is the identity when no element satisfies the predicate. -/
theorem dropWhile_eq_self_of_none {p : Char → Bool} (cs : List Char)
    (h : ∀ c ∈ cs, p c = false) : cs.dropWhile p = cs := by
  cases cs with
  | nil => rfl
  | cons c cs2 =>
    rw [List.dropWhile_cons, if_neg]
    simp [h c (List.mem_cons_self c cs2)]

/-- Stripping whitespace does nothing to an all-digit string. -/
theorem trimWS_of_digits (cs : List Char) (h : cs.all Char.isDigit = true) :
    trimWS cs = cs := by
  have hmem : ∀ c ∈ cs, Char.isWhitespace c = false := fun c hc =>
    digit_not_ws c (List.all_eq_true.mp h c hc)
  unfold trimWS dropWS
  rw [dropWhile_eq_self_of_none _ (fun c hc => hmem c (List.mem_reverse.mp hc)),
    List.reverse_reverse, dropWhile_eq_self_of_none _ hmem]

/-- `int()` on a nonempty all-digit character list. -/
theorem parsePyIntCore_digits (cs : List Char) (h1 : cs ≠ [])
    (h2 : cs.all Char.isDigit = true) :
    parsePyIntCore cs = some ((parseDigits cs : Nat) : Int) := by
  cases cs with
  | nil => exact absurd rfl h1
  | cons c rest =>
    have hcd : c.isDigit = true := List.all_eq_true.mp h2 c (List.mem_cons_self _ _)
    have hcm : c ≠ '-' := by
      intro h0; rw [h0] at hcd; exact absurd hcd (by decide)
    have hcp : c ≠ '+' := by
      intro h0; rw [h0] at hcd; exact absurd hcd (by decide)
    show parsePySigned c rest = some ((parseDigits (c :: rest) : Nat) : Int)
    unfold parsePySigned
    rw [if_neg hcm, if_neg hcp, if_pos h2]

/-- A nonempty string has a nonempty character list. -/
theorem data_ne_nil_of_ne_empty (s : String) (h : s ≠ "") : s.data ≠ [] := by
  intro h0
  apply h
  have hs : s = ⟨s.data⟩ := rfl
  rw [hs, h0]

/-- `int()` on a nonempty all-digit string. -/
theorem parsePyInt_digits (s : String) (h1 : s.data ≠ [])
    (h2 : s.data.all Char.isDigit = true) :
    parsePyInt s = some ((parseDigits s.data : Nat) : Int) := by
  unfold parsePyInt
  rw [trimWS_of_digits s.data h2]
  exact parsePyIntCore_digits s.data h1 h2

/-- `str(n)` is a nonempty all-digit string. -/
theorem natToString_good (n : Nat) :
    natToString n ≠ "" ∧ (natToString n).data.all Char.isDigit = true := by
  by_cases h0 : n = 0
  · subst h0
    exact ⟨by decide, by decide⟩
  · obtain ⟨_, hne, hall⟩ := natDigits_spec (n + 1) n (by omega) (by omega)
    unfold natToString
    rw [if_neg h0]
    refine ⟨fun hcontra => hne ?_, hall⟩
    have := congrArg String.data hcontra
    exact this

/-- `int(str(n)) = n`. -/
theorem parsePyInt_natToString (n : Nat) : parsePyInt (natToString n) = some (n : Int) := by
  by_cases h0 : n = 0
  · subst h0; decide
  · obtain ⟨hp, hne, hall⟩ := natDigits_spec (n + 1) n (by omega) (by omega)
    unfold natToString
    rw [if_neg h0]
    unfold parsePyInt
    show parsePyIntCore (trimWS (natDigits (n + 1) n)) = some (n : Int)
    rw [trimWS_of_digits _ hall, parsePyIntCore_digits _ hne hall, hp]

/-- `str` of a non-negative integer renders its natural part. -/
theorem pyStr_nonneg (i : Int) (h : 0 ≤ i) : pyStr i = natToString i.toNat := by
  unfold pyStr
  rw [if_neg (by omega)]

/-! ### Freshness of generated ids -/

/-- When every id parses, `next_id` strictly exceeds every parsed id. -/
theorem next_id_gt (tasks : List Task)
    (hall : ∀ u ∈ tasks, ∃ v, parsePyInt u.id = some v) (hne : tasks ≠ []) :
    ∀ u ∈ tasks, ∀ v, parsePyInt u.id = some v → v < next_id tasks := by
  obtain ⟨vs, hvs, hf⟩ := idVals_some_of_all tasks hall
  cases tasks with
  | nil => exact absurd rfl hne
  | cons t0 rest =>
    cases hf with
    | cons hv0 hfrest =>
      rename_i v0 vrest
      intro u hu v hv
      obtain ⟨w, hw, hpw⟩ := forall2_mem_left (List.Forall₂.cons hv0 hfrest) u hu
      rw [hv] at hpw
      injection hpw with hvw
      subst hvw
      have hnx : next_id (t0 :: rest) = vrest.foldl max v0 + 1 := by
        unfold next_id
        rw [if_neg (by simp), hvs]
      rw [hnx]
      obtain ⟨hseed, hbound⟩ := le_foldl_max vrest v0
      rcases List.mem_cons.mp hw with rfl | hmm
      · omega
      · have := hbound _ hmm
        omega

/-- With all-digit ids, `next_id` is at least 1. -/
theorem next_id_ge_one (tasks : List Task)
    (hids : ∀ u ∈ tasks, u.id ≠ "" ∧ u.id.data.all Char.isDigit = true) :
    1 ≤ next_id tasks := by
  cases htl : tasks with
  | nil => decide
  | cons t0 rest =>
    subst htl
    obtain ⟨hne0, hd0⟩ := hids t0 (List.mem_cons_self _ _)
    have hp0 := parsePyInt_digits t0.id (data_ne_nil_of_ne_empty _ hne0) hd0
    have hall : ∀ u ∈ t0 :: rest, ∃ v, parsePyInt u.id = some v := by
      intro u hu
      obtain ⟨hneu, hdu⟩ := hids u hu
      exact ⟨_, parsePyInt_digits u.id (data_ne_nil_of_ne_empty _ hneu) hdu⟩
    have hlt := next_id_gt _ hall (by simp) t0 (List.mem_cons_self _ _) _ hp0
    have hv0 : (0 : Int) ≤ ((parseDigits t0.id.data : Nat) : Int) := Int.natCast_nonneg _
    omega

/-- With all-digit ids, the id the next add would assign differs from
every stored id, deleted records included. -/
theorem next_id_fresh (tasks : List Task)
    (hids : ∀ u ∈ tasks, u.id ≠ "" ∧ u.id.data.all Char.isDigit = true) :
    ∀ u ∈ tasks, pyStr (next_id tasks) ≠ u.id := by
  intro u hu heq
  obtain ⟨hneu, hdu⟩ := hids u hu
  have hparse := parsePyInt_digits u.id (data_ne_nil_of_ne_empty _ hneu) hdu
  have hall : ∀ w ∈ tasks, ∃ v, parsePyInt w.id = some v := by
    intro w hw
    obtain ⟨hnew, hdw⟩ := hids w hw
    exact ⟨_, parsePyInt_digits w.id (data_ne_nil_of_ne_empty _ hnew) hdw⟩
  have htne : tasks ≠ [] := by
    intro h0
    rw [h0] at hu
    cases hu
  have hlt := next_id_gt tasks hall htne u hu _ hparse
  have hN1 : 1 ≤ next_id tasks := next_id_ge_one tasks hids
  have hround : parsePyInt (pyStr (next_id tasks)) = some (next_id tasks) := by
    rw [pyStr_nonneg _ (by omega), parsePyInt_natToString]
    congr 1
    exact Int.toNat_of_nonneg (by omega)
  rw [heq, hparse] at hround
  injection hround with hv
  omega

/-- An add never breaks the all-digit-ids invariant. -/
theorem add_keeps_digit_ids (tasks : List Task)
    (hids : ∀ u ∈ tasks, u.id ≠ "" ∧ u.id.data.all Char.isDigit = true)
    (rawText priority dueRaw created : String) (tkcal : Bool) :
    ∀ u ∈ (add_task tasks rawText priority dueRaw tkcal created).1,
      u.id ≠ "" ∧ u.id.data.all Char.isDigit = true := by
  intro u hu
  unfold add_task at hu
  by_cases ht : pyStrip rawText = ""
  · rw [if_pos ht] at hu
    exact hids u hu
  · rw [if_neg ht] at hu
    cases hdue : readDueDate tkcal dueRaw with
    | error e =>
      rw [hdue] at hu
      exact hids u hu
    | ok due =>
      rw [hdue] at hu
      rcases List.mem_append.mp hu with hm | hm
      · exact hids u hm
      · have hun := List.mem_singleton.mp hm
        subst hun
        have hN := next_id_ge_one tasks hids
        show pyStr (next_id tasks) ≠ "" ∧ (pyStr (next_id tasks)).data.all Char.isDigit = true
        rw [pyStr_nonneg _ (by omega)]
        exact natToString_good _

/-- Every projected row has its `deleted` flag unset. -/
theorem mem_refreshVisible_not_deleted (tasks : List Task) (f : Filter) (search : String)
    (u : Task) (hu : u ∈ refreshVisible tasks f search) : u.deleted = false := by
  have h1 : u ∈ visibleUnsorted tasks f search :=
    (List.perm_insertionSort taskLE _).subset hu
  have h2 := (List.mem_filter.mp h1).2
  simp at h2
  exact h2.1.1

/-- C7 counterexample: after soft-deleting the record with id "1", an add
on a list that also holds a non-numeric id "abc" reissues the deleted
record's id: the `ValueError` fallback makes `next_id` return 1 and the
appended record gets id "1" again. -/
theorem soft_delete_reissue_counterexample :
    (soft_delete taskA).id = "1" ∧
    (add_task [soft_delete taskA, taskIdAbc] "x" "Medium" "" true "2024-01-02 00:00").1 =
      [soft_delete taskA, taskIdAbc,
        { id := "1", text := "x", priority := "Medium", due_date := none,
          completed := false, created := "2024-01-02 00:00", deleted := false }] := by
  decide

/-- C7 amended: a soft-deleted record is excluded from the projection
under every filter and search text; and, provided every stored id is a
numeric (digit) string, the id a subsequent add would assign differs from
every stored id — the deleted record's included — and adds preserve the
all-numeric invariant, so the id is never reissued; with a non-numeric id
present, the `next_id` fallback can reissue ids. -/
theorem soft_deleted_hidden_and_id_not_reissued :
    ∀ (pre post : List Task) (t : Task) (f : Filter) (search : String),
      soft_delete t ∉ refreshVisible (pre ++ soft_delete t :: post) f search ∧
      ((∀ u ∈ pre ++ soft_delete t :: post, u.id ≠ "" ∧ u.id.data.all Char.isDigit = true) →
        (∀ u ∈ pre ++ soft_delete t :: post,
          pyStr (next_id (pre ++ soft_delete t :: post)) ≠ u.id) ∧
        ∀ (rawText priority dueRaw created : String) (tkcal : Bool),
          ∀ u ∈ (add_task (pre ++ soft_delete t :: post) rawText priority dueRaw tkcal
              created).1,
            u.id ≠ "" ∧ u.id.data.all Char.isDigit = true) := by
  intro pre post t f search
  refine ⟨fun hmem => ?_, fun hids =>
    ⟨next_id_fresh _ hids, fun rT p dR cr tk => add_keeps_digit_ids _ hids rT p dR cr tk⟩⟩
  have hdel := mem_refreshVisible_not_deleted _ f search _ hmem
  simp [soft_delete] at hdel

/-- C7 witness: with taskB soft-deleted next to taskA, the projection
under filter All and empty search hides it, and the next generated id
"3" differs from both stored ids. -/
theorem soft_deleted_hidden_witness :
    soft_delete taskB ∉ refreshVisible ([taskA] ++ soft_delete taskB :: []) Filter.all "" ∧
    ∀ u ∈ [taskA] ++ soft_delete taskB :: [],
      pyStr (next_id ([taskA] ++ soft_delete taskB :: [])) ≠ u.id :=
  ⟨(soft_deleted_hidden_and_id_not_reissued [taskA] [] taskB Filter.all "").1,
   ((soft_deleted_hidden_and_id_not_reissued [taskA] [] taskB Filter.all "").2
     (by decide)).1⟩

end TodoSpec
